import Mathlib

/-!
Verification of the mbtiles-go repository (a read-only accessor for the
MBTiles tile-container format) against its natural-language specification.

The development shallowly embeds the Go source:

* `tile.go` — the format sniffer (`detectTileFormat`, `detectTileSize`) and
  the MIME mapping (`TileFormat.MimeType`);
* `mbtiles.go` (current revision) — the container accessor (`Open`,
  `Close`, `ReadTile`, `ReadMetadata`, `validateRequiredTables`,
  `getTileFormatAndSize`, `parseFloats`).

Modelling conventions:

* Go byte slices are `List Byte` with `Byte := Fin 256`; slice capacity is
  taken equal to length (which is what the callers in this repository
  produce via `make([]byte, n)`).
* Go functions returning `(value, error)` become `value × Option String`
  or `Except String value`; a function that can additionally hit a Go
  runtime panic (out-of-range index or slice bound) returns `GoResult`,
  whose `crash` constructor models the panic.
* External collaborators are parameters or small explicit models:
  the JPEG header decoder (`image/jpeg.DecodeConfig`) and the JSON decoder
  (`encoding/json.Unmarshal`) are taken as function parameters, so theorems
  quantify over their behaviour; the connection pool
  (`crawshaw.io/sqlite/sqlitex.Pool`) is modelled by a `closed` flag, with
  `Pool.Get` yielding no connection once the pool has been closed, as the
  library documents.
* The SQLite engine is modelled by explicit table contents (`SqliteDb`):
  `sqlite_master` as a list of names, `tiles` and `metadata` as row lists;
  the queries issued by the source are translated to list operations.
* `os.Stat` results are modelled by the two booleans of `World`; the
  machine word sizes never overflow in any reachable computation here
  (all widths are below 2^32), so `Nat`/`Int` are used directly.
* Go `float64` values produced by `strconv.ParseFloat` are modelled
  exactly as decimal numbers (`DecFloat`, an integer mantissa scaled by a
  power of ten); rounding to binary floating point is not modelled since
  no claim compares numeric magnitudes.  `parseGoFloat` models the decimal
  forms accepted by `strconv.ParseFloat` (optional sign, digits with
  optional fraction and exponent); the special forms (infinities, NaN,
  hexadecimal floats, digit underscores) are not modelled.
-/

deriving instance DecidableEq for Except

namespace Mbtiles

/-- A Go byte. -/
abbrev Byte := Fin 256

/-- Result of a Go computation that may return an error or hit a runtime
panic.  `ok` is a normal return with nil error, `err` a non-nil error
(carrying the message), and `crash` models a Go runtime panic such as an
out-of-range index or slice bound. -/
inductive GoResult (α : Type) where
  | ok (val : α)
  | err (msg : String)
  | crash (msg : String)
deriving DecidableEq, Repr

/-- TileFormat enum from `tile.go`: the tile format of tiles in an mbtiles
file (UNKNOWN, GZIP, ZLIB, PNG, JPG, PBF, WEBP). -/
inductive TileFormat where
  | UNKNOWN
  | GZIP
  | ZLIB
  | PNG
  | JPG
  | PBF
  | WEBP
deriving DecidableEq, Repr

/-- MimeType from `tile.go`: the MIME content type for the TileFormat;
formats outside the switch return the empty string. -/
def TileFormat.MimeType : TileFormat → String
  | .PNG => "image/png"
  | .JPG => "image/jpeg"
  | .PBF => "application/x-protobuf"
  | .WEBP => "image/webp"
  | _ => ""

/-- formatPrefixes from `tile.go`: the table of magic signatures.  The Go
source stores it in a map whose iteration order is unspecified; the list
here fixes one order, and the theorems about `detectTileFormatWith`
quantify over all permutations of it. -/
def formatPrefixes : List (TileFormat × List Byte) :=
  [(.GZIP, [0x1f, 0x8b]),
   (.ZLIB, [0x78, 0x9c]),
   (.PNG, [0x89, 0x50, 0x4E, 0x47, 0x0D, 0x0A, 0x1A, 0x0A]),
   (.JPG, [0xFF, 0xD8, 0xFF]),
   (.WEBP, [0x52, 0x49, 0x46, 0x46])]

/-- Error message of `detectTileFormat` when no signature matches. -/
def undetectableMsg : String := "could not detect tile format"

/-- Body of detectTileFormat from `tile.go`, made explicit in the order in
which the signature table is traversed: the first entry whose pattern is a
prefix of the data wins; if none matches the result is `(UNKNOWN, error)`.
The returned pair models Go's `(TileFormat, error)` with `none` as the nil
error. -/
def detectTileFormatWith (table : List (TileFormat × List Byte)) (data : List Byte) :
    TileFormat × Option String :=
  match table with
  | [] => (.UNKNOWN, some undetectableMsg)
  | (format, pattern) :: rest =>
    if pattern.isPrefixOf data then (format, none)
    else detectTileFormatWith rest data

/-- detectTileFormat from `tile.go`, traversing the table in the order of
`formatPrefixes`. -/
def detectTileFormat (data : List Byte) : TileFormat × Option String :=
  detectTileFormatWith formatPrefixes data

/-- Byte of a Go slice at a fixed index, as a `Nat`.  Only used after the
surrounding code has established the index to be in bounds (out-of-bounds
accesses are modelled separately by `GoResult.crash` branches). -/
def byteAt (data : List Byte) (i : Nat) : Nat :=
  (data.getD i 0).val

/-- binary.BigEndian.Uint32 on four bytes. -/
def goUint32BE (b0 b1 b2 b3 : Nat) : Nat :=
  (b0 <<< 24) ||| (b1 <<< 16) ||| (b2 <<< 8) ||| b3

/-- binary.LittleEndian.Uint16 on the first two bytes of a slice. -/
def goUint16LE (b0 b1 : Nat) : Nat :=
  b0 ||| (b1 <<< 8)

/-- The four-byte chunk tag "VP8 " (lossy WebP). -/
def vp8Tag : List Byte := [0x56, 0x50, 0x38, 0x20]

/-- The four-byte chunk tag "VP8L" (lossless WebP). -/
def vp8lTag : List Byte := [0x56, 0x50, 0x38, 0x4C]

/-- The four-byte chunk tag "VP8X" (extended WebP). -/
def vp8xTag : List Byte := [0x56, 0x50, 0x38, 0x58]

/-- Error message for a PNG buffer shorter than 20 bytes. -/
def pngTooShortMsg : String := "insufficient length to detect png image size"

/-- Error message for a WebP buffer failing one of the length guards. -/
def webpTooShortMsg : String := "insufficient length to detect webp image size"

/-- Go runtime panic message for a slice expression whose bound exceeds the
capacity. -/
def sliceOutOfRangeMsg : String := "runtime error: slice bounds out of range"

/-- Go runtime panic message for an index beyond the slice length. -/
def indexOutOfRangeMsg : String := "runtime error: index out of range"

/-- detectTileSize from `tile.go`.  The JPEG branch delegates to the
standard library decoder (`image/jpeg.DecodeConfig`), taken here as the
parameter `jpegWidth` returning the decoded width or the decoder's error.
Go's runtime bounds semantics are made explicit: the WEBP branch
evaluates `encType := data[12:16]` before any length guard, which panics
for buffers shorter than 16 bytes; the VP8 lossy branch guards
`len(data) < 27` but then reads `data[27]`, which panics for a buffer of
exactly 27 bytes; the VP8X branch guards `len(data) < 26` but then slices
`data[24:27]`, which panics for a buffer of exactly 26 bytes. -/
def detectTileSize (jpegWidth : List Byte → Except String Nat)
    (format : TileFormat) (data : List Byte) : GoResult Nat :=
  match format with
  | .GZIP => .ok 512
  | .PBF => .ok 512
  | .PNG =>
    if data.length < 20 then .err pngTooShortMsg
    else .ok (goUint32BE (byteAt data 16) (byteAt data 17) (byteAt data 18) (byteAt data 19))
  | .JPG =>
    match jpegWidth data with
    | .ok w => .ok w
    | .error e => .err e
  | .WEBP =>
    if data.length < 16 then .crash sliceOutOfRangeMsg
    else
      let encType := (data.drop 12).take 4
      if vp8Tag.isPrefixOf encType then
        if data.length < 27 then .err webpTooShortMsg
        else if data.length < 28 then .crash indexOutOfRangeMsg
        else .ok ((((byteAt data 27) &&& 0x3f) <<< 8) ||| (byteAt data 26))
      else if vp8lTag.isPrefixOf encType then
        if data.length < 23 then .err webpTooShortMsg
        else .ok (((goUint16LE (byteAt data 21) (byteAt data 22)) &&& 0x1ff) + 1)
      else if vp8xTag.isPrefixOf encType then
        if data.length < 26 then .err webpTooShortMsg
        else if data.length < 27 then .crash sliceOutOfRangeMsg
        else .ok ((goUint16LE (byteAt data 24) (byteAt data 25)) + 1)
      else .ok 0
  | .UNKNOWN => .ok 0
  | .ZLIB => .ok 0

/-- One row of the `tiles` table: zoom_level, tile_column, tile_row (SQLite
integers) and the raw tile_data blob. -/
structure TileRow where
  zoom_level : Int
  tile_column : Int
  tile_row : Int
  tile_data : List Byte
deriving DecidableEq, Repr

/-- Contents of the SQLite database behind an mbtiles path:
`masterNames` models the `name` column of `sqlite_master`, and `tiles` and
`metadata` the rows of the two required tables (in rowid order, which is
the order in which unqualified SELECTs step through them). -/
structure SqliteDb where
  masterNames : List String
  tiles : List TileRow
  metadata : List (String × String)
deriving DecidableEq, Repr

/-- Model of the external `sqlitex.Pool` collaborator: only its lifecycle
state matters to this layer.  `Pool.Close` marks it closed; once closed,
`Pool.Get` yields no connection (the library then makes `Get` return nil). -/
structure Pool where
  closed : Bool
deriving DecidableEq, Repr

/-- The MBtiles handle from `mbtiles.go`: filename, connection pool
(`none` models the nil pool of a zero-value, never-opened handle), the
format and tile size detected at open time, and the database the pooled
connections read from.  The `timestamp` field of the source (a rounded
`os.Stat` modification time) plays no part in any claim and is omitted. -/
structure MBtiles where
  filename : String
  pool : Option Pool
  format : TileFormat
  tilesize : Nat
  db : SqliteDb
deriving DecidableEq, Repr

/-- The zero value `&MBtiles{}` used by the repository's close test: nil
pool, zero-valued fields. -/
def MBtiles.zero : MBtiles :=
  { filename := "", pool := none, format := .UNKNOWN, tilesize := 0,
    db := { masterNames := [], tiles := [], metadata := [] } }

/-- The filesystem facts `Open` consults about a path, plus the database
stored at it: whether `os.Stat` finds the path, whether a sibling
`path+"-journal"` file exists, and the database contents. -/
structure World where
  pathExists : Bool
  journalExists : Bool
  db : SqliteDb
deriving DecidableEq, Repr

/-- Error message of `Open` for a nonexistent path (the source appends the
quoted path via `%q`). -/
def pathNotFoundMsg (path : String) : String :=
  "path does not exist: " ++ path

/-- Error message of `Open` when a sibling -journal file exists. -/
def journalMsg : String :=
  "refusing to open mbtiles file with associated -journal file (incomplete tileset)"

/-- Error message of `validateRequiredTables`. -/
def missingTablesMsg : String :=
  "missing one or more required tables: tiles, metadata"

/-- Error message of `getTileFormatAndSize` for an empty tiles table. -/
def emptyTilesMsg : String :=
  "\x27tiles\x27 table must be non-empty"

/-- The count computed by the validation query
`SELECT count(*) FROM sqlite_master WHERE name in ('tiles', 'metadata')`. -/
def requiredTablesCount (db : SqliteDb) : Nat :=
  (db.masterNames.filter (fun n => n == "tiles" || n == "metadata")).length

/-- validateRequiredTables from `mbtiles.go`: both `tiles` and `metadata`
must be present; `some msg` models a non-nil error. -/
def validateRequiredTables (db : SqliteDb) : Option String :=
  if requiredTablesCount db < 2 then some missingTablesMsg else none

/-- The promotion `if format == GZIP { format = PBF }` performed after
sniffing (GZIP masks PBF, the only expected gzip-wrapped tile type). -/
def promoteGzip (f : TileFormat) : TileFormat :=
  if f = .GZIP then .PBF else f

/-- getTileFormatAndSize from `mbtiles.go`: reads the first tile row
(`select tile_data from tiles limit 1`), sniffs its format, promotes GZIP
to PBF, and runs dimension detection on the same bytes.  Any failure —
including a runtime panic inside `detectTileSize` — propagates. -/
def getTileFormatAndSize (jpegWidth : List Byte → Except String Nat)
    (db : SqliteDb) : GoResult (TileFormat × Nat) :=
  match db.tiles.head? with
  | none => .err emptyTilesMsg
  | some row =>
    match detectTileFormat row.tile_data with
    | (_, some e) => .err e
    | (f, none) =>
      match detectTileSize jpegWidth (promoteGzip f) row.tile_data with
      | .crash m => .crash m
      | .err e => .err e
      | .ok size => .ok (promoteGzip f, size)

/-- Open from `mbtiles.go`: stat the path, refuse a sibling -journal file,
validate the required tables, sample the first tile for format and size,
then build the handle around a fresh (live) pool.  The single verification
connection and the pool are assumed to open successfully on an existing
validated file (the source propagates engine errors from those two steps;
the engine is an external collaborator outside this model). -/
def Open (jpegWidth : List Byte → Except String Nat) (w : World)
    (path : String) : GoResult MBtiles :=
  if w.pathExists = false then .err (pathNotFoundMsg path)
  else if w.journalExists = true then .err journalMsg
  else
    match validateRequiredTables w.db with
    | some e => .err e
    | none =>
      match getTileFormatAndSize jpegWidth w.db with
      | .crash m => .crash m
      | .err e => .err e
      | .ok (format, tilesize) =>
        .ok { filename := path, pool := some { closed := false },
              format := format, tilesize := tilesize, db := w.db }

/-- Close from `mbtiles.go`: `if db.pool != nil { db.pool.Close() }`.
Note that the source closes the pool but leaves the `pool` field set, so a
closed handle still has a non-nil pool. -/
def Close (db : MBtiles) : MBtiles :=
  match db.pool with
  | none => db
  | some _ => { db with pool := some { closed := true } }

/-- Error message of the closed-handle guard shared by ReadTile and
ReadMetadata (the HandleClosed error of the specification). -/
def handleClosedMsg : String := "cannot read tile from closed mbtiles database"

/-- Error message of `getConnection` when `pool.Get` yields no
connection, as happens once the pool has been closed. -/
def connectionFailedMsg : String := "connection could not be opened"

/-- The WHERE clause of ReadTile's query:
`zoom_level = $z and tile_column = $x and tile_row = $y`. -/
def tileRowMatches (z x y : Int) (r : TileRow) : Bool :=
  r.zoom_level == z && r.tile_column == x && r.tile_row == y

/-- ReadTile from `mbtiles.go`.  The `Option MBtiles` argument models the
`*MBtiles` receiver (`none` is a nil pointer).  The result models the
written-through `*[]byte`: `ok none` is `*data = nil` with nil error
(tile absent), `ok (some bytes)` the stored blob of the first matching
row. -/
def ReadTile (db? : Option MBtiles) (z x y : Int) :
    GoResult (Option (List Byte)) :=
  match db? with
  | none => .err handleClosedMsg
  | some db =>
    match db.pool with
    | none => .err handleClosedMsg
    | some pool =>
      if pool.closed then .err connectionFailedMsg
      else
        match db.db.tiles.find? (tileRowMatches z x y) with
        | none => .ok none
        | some row => .ok (some row.tile_data)

/-- A parsed Go float64, kept exactly as a decimal: the represented value
is `mantissa * 10 ^ exp10`.  Rounding to binary floating point is not
modelled (no claim compares numeric magnitudes). -/
structure DecFloat where
  mantissa : Int
  exp10 : Int
deriving DecidableEq, Repr

/-- A value of the metadata map (`map[string]interface{}` in the source):
an `int` from strconv.Atoi or the zoom back-fill, a `[]float64` from
parseFloats, a string, or a value merged from the embedded `json`
document (for which Go's encoding/json decodes numbers as float64,
strings as string, booleans as bool and null as nil). -/
inductive MetaValue where
  | intVal (n : Int)
  | floatsVal (xs : List DecFloat)
  | strVal (s : String)
  | jsonNumber (x : DecFloat)
  | jsonString (s : String)
  | jsonBool (b : Bool)
  | jsonNull
deriving DecidableEq, Repr

/-- The metadata map, with its insertion-order-irrelevant lookup modelled
by an association list updated in place. -/
abbrev MetaMap := List (String × MetaValue)

/-- Map update `m[k] = v`: replaces the binding if the key is present,
otherwise appends it.  (The maps built here never hold duplicate keys, so
replacing the first occurrence is exactly Go's map assignment.) -/
def mput (m : MetaMap) (k : String) (v : MetaValue) : MetaMap :=
  match m with
  | [] => [(k, v)]
  | kv :: rest => if kv.1 == k then (k, v) :: rest else kv :: mput rest k v

/-- Map lookup `m[k]`. -/
def mget (m : MetaMap) (k : String) : Option MetaValue :=
  (m.find? (fun kv => kv.1 == k)).map (fun kv => kv.2)

/-- Decimal digit list to the number it denotes. -/
def digitsToNat (ds : List Char) : Nat :=
  ds.foldl (fun a c => a * 10 + (c.toNat - 48)) 0

/-- Modelled from the Go standard library: `strconv.Atoi` accepts an
optional sign followed by one or more decimal digits (the 64-bit range
check is not modelled; no claim involves integers near 2^63). -/
def goAtoi (s : String) : Option Int :=
  let cs := s.toList
  let (neg, ds) :=
    match cs with
    | '-' :: r => (true, r)
    | '+' :: r => (false, r)
    | _ => (false, cs)
  if ds.isEmpty || !(ds.all Char.isDigit) then none
  else
    let n : Int := Int.ofNat (digitsToNat ds)
    some (if neg then -n else n)

/-- ASCII whitespace recognized by `strings.TrimSpace` (the further
Unicode space classes are not modelled; metadata values are ASCII). -/
def goIsSpace (c : Char) : Bool :=
  c = ' ' || c = '\t' || c = '\n' || c = '\r' || c.toNat = 11 || c.toNat = 12

/-- strings.TrimSpace on both ends of a string. -/
def goTrimSpace (s : String) : String :=
  String.mk (((s.toList.dropWhile goIsSpace).reverse.dropWhile goIsSpace).reverse)

/-- Modelled from the Go standard library: the decimal forms accepted by
`strconv.ParseFloat` — optional sign, digits with an optional fractional
part (at least one digit overall) and an optional signed exponent.  The
special forms (infinities, NaN, hexadecimal floats, digit underscores)
are not modelled; they do not occur in any claim. -/
def parseGoFloat (s : String) : Option DecFloat :=
  let cs := s.toList
  let (neg, cs1) :=
    match cs with
    | '-' :: r => (true, r)
    | '+' :: r => (false, r)
    | _ => (false, cs)
  let ip := cs1.takeWhile Char.isDigit
  let cs2 := cs1.dropWhile Char.isDigit
  let (fp, cs3) :=
    match cs2 with
    | '.' :: r => (r.takeWhile Char.isDigit, r.dropWhile Char.isDigit)
    | _ => ([], cs2)
  if ip.isEmpty && fp.isEmpty then none
  else
    let base : Int := Int.ofNat (digitsToNat (ip ++ fp))
    let mant : Int := if neg then -base else base
    match cs3 with
    | [] => some { mantissa := mant, exp10 := -(Int.ofNat fp.length) }
    | e :: r =>
      if e = 'e' ∨ e = 'E' then
        let (eneg, r1) :=
          match r with
          | '-' :: r2 => (true, r2)
          | '+' :: r2 => (false, r2)
          | _ => (false, r)
        let ed := r1.takeWhile Char.isDigit
        let r2 := r1.dropWhile Char.isDigit
        if ed.isEmpty || !(r2.isEmpty) then none
        else
          let ev : Int := Int.ofNat (digitsToNat ed)
          let ev := if eneg then -ev else ev
          some { mantissa := mant, exp10 := ev - Int.ofNat fp.length }
      else none

/-- strings.Split with the single-character separator "," as used by
parseFloats, modelled by splitting the character list on commas: the
number of resulting tokens is one more than the number of commas, and an
empty input yields the single empty token, as in Go. -/
def splitOnComma (cs : List Char) : List (List Char) :=
  match cs with
  | [] => [[]]
  | c :: rest =>
    match splitOnComma rest with
    | [] => if c = ',' then [[], []] else [[c]]
    | t :: ts => if c = ',' then [] :: t :: ts else (c :: t) :: ts

/-- Error message of parseFloats, embedding the whole offending value as
the source does via `%q`. -/
def couldNotParseMsg (str : String) : String :=
  "could not parse \"" ++ str ++ "\" to floats"

/-- The loop of parseFloats over the comma-separated tokens, accumulating
one float per token and stopping at the first token that fails to parse. -/
def parseFloatsLoop (tokens : List String) (orig : String)
    (out : List DecFloat) : Except String (List DecFloat) :=
  match tokens with
  | [] => .ok out
  | v :: rest =>
    match parseGoFloat (goTrimSpace v) with
    | some value => parseFloatsLoop rest orig (out ++ [value])
    | none => .error (couldNotParseMsg orig)

/-- The comma-separated tokens of a string, as strings. -/
def commaTokens (str : String) : List String :=
  (splitOnComma str.toList).map String.mk

/-- parseFloats from `mbtiles.go`: split on commas, trim each token, parse
each as a float64; the first failure aborts with an error. -/
def parseFloats (str : String) : Except String (List DecFloat) :=
  parseFloatsLoop (commaTokens str) str []

/-- The external JSON decoder collaborator (`encoding/json.Unmarshal` into
a `map[string]interface{}`): from the document to the list of top-level
key/value pairs it merges, or a decode error. -/
abbrev JsonDecoder := String → Except String (List (String × MetaValue))

/-- Error message of ReadMetadata for an undecodable `json` value. -/
def jsonErrMsg : String := "unable to parse JSON metadata item"

/-- The switch body of ReadMetadata for one metadata row, updating the
accumulated map or failing: `minzoom`/`maxzoom` through strconv.Atoi,
`bounds`/`center` through parseFloats, `json` merged one level into the
map, everything else stored as a string.  (The Atoi/parseFloats error
detail interpolated by the source's `%v` is elided from the messages.) -/
def metadataStep (jsonDecode : JsonDecoder) (m : MetaMap)
    (kv : String × String) : Except String MetaMap :=
  if kv.1 == "maxzoom" || kv.1 == "minzoom" then
    match goAtoi kv.2 with
    | some n => .ok (mput m kv.1 (.intVal n))
    | none => .error ("cannot read metadata item " ++ kv.1)
  else if kv.1 == "bounds" || kv.1 == "center" then
    match parseFloats kv.2 with
    | .ok xs => .ok (mput m kv.1 (.floatsVal xs))
    | .error _ => .error ("cannot read metadata item " ++ kv.1)
  else if kv.1 == "json" then
    match jsonDecode kv.2 with
    | .ok kvs => .ok (kvs.foldl (fun acc p => mput acc p.1 p.2) m)
    | .error _ => .error jsonErrMsg
  else .ok (mput m kv.1 (.strVal kv.2))

/-- The row scan of ReadMetadata:
`select name, value from metadata where value is not ''` feeds each row
through the switch; empty-string values are filtered out by the query. -/
def scanMetadata (jsonDecode : JsonDecoder) (rows : List (String × String)) :
    Except String MetaMap :=
  (rows.filter (fun kv => kv.2 != "")).foldlM (metadataStep jsonDecode) []

/-- The value of `select min(zoom_level) from tiles` as read by
`ColumnInt` (NULL on an empty table reads as 0). -/
def minZoomInt (tiles : List TileRow) : Int :=
  match tiles with
  | [] => 0
  | t :: rest => rest.foldl (fun a r => min a r.zoom_level) t.zoom_level

/-- The value of `select max(zoom_level) from tiles` as read by
`ColumnInt` (NULL on an empty table reads as 0). -/
def maxZoomInt (tiles : List TileRow) : Int :=
  match tiles with
  | [] => 0
  | t :: rest => rest.foldl (fun a r => max a r.zoom_level) t.zoom_level

/-- ReadMetadata from `mbtiles.go`: guard against a nil handle or nil
pool, acquire a connection, scan the metadata rows, and if either
`minzoom` or `maxzoom` is still absent back-fill both from the zoom range
of the tiles table. -/
def ReadMetadata (jsonDecode : JsonDecoder) (db? : Option MBtiles) :
    GoResult MetaMap :=
  match db? with
  | none => .err handleClosedMsg
  | some db =>
    match db.pool with
    | none => .err handleClosedMsg
    | some pool =>
      if pool.closed then .err connectionFailedMsg
      else
        match scanMetadata jsonDecode db.db.metadata with
        | .error e => .err e
        | .ok m =>
          if (mget m "minzoom").isSome && (mget m "maxzoom").isSome then .ok m
          else
            .ok (mput (mput m "minzoom" (.intVal (minZoomInt db.db.tiles)))
                  "maxzoom" (.intVal (maxZoomInt db.db.tiles)))

/-- GetTileFormat from `mbtiles.go`. -/
def GetTileFormat (db : MBtiles) : TileFormat :=
  db.format

/-- GetTileSize from `mbtiles.go`. -/
def GetTileSize (db : MBtiles) : Nat :=
  db.tilesize

/-- Whether a metadata value is a Go int (the type strconv.Atoi and the
zoom back-fill produce). -/
def MetaValue.isIntVal : MetaValue → Bool
  | .intVal _ => true
  | _ => false

/-- A stand-in for the JPEG decoder in computations whose inputs never
reach the JPG branch. -/
def jpegWidthStub : List Byte → Except String Nat :=
  fun _ => .error "jpeg decoder not invoked"

/-- A stand-in for the JSON decoder in computations whose inputs contain
no `json` metadata row. -/
def jsonDecodeStub : JsonDecoder :=
  fun _ => .error "json decoder not invoked"

/-- First 28 bytes of the lossy WebP sample used by the repository's own
tile tests (gstatic gallery 1.webp): RIFF header, "VP8 " tag, width 320. -/
def lossyWebpBytes : List Byte :=
  [0x52, 0x49, 0x46, 0x46, 0xe2, 0x28, 0x00, 0x00, 0x57, 0x45, 0x42, 0x50,
   0x56, 0x50, 0x38, 0x20, 0xd6, 0x28, 0x00, 0x00, 0x92, 0xb3, 0x00, 0x9d,
   0x01, 0x2a, 0x40, 0x01]

/-- First 20 bytes of the repository's PNG fixture tile (tile 0/0/0 of
geography-class-png.mbtiles): PNG signature, IHDR header, width 256. -/
def pngHeaderBytes : List Byte :=
  [0x89, 0x50, 0x4E, 0x47, 0x0D, 0x0A, 0x1A, 0x0A, 0x00, 0x00, 0x00, 0x0D,
   0x49, 0x48, 0x44, 0x52, 0x00, 0x00, 0x01, 0x00]

/-- A tiles row at 0/0/0 holding the PNG fixture header. -/
def pngTileRow : TileRow :=
  { zoom_level := 0, tile_column := 0, tile_row := 0, tile_data := pngHeaderBytes }

/-- A second tiles row at 1/0/0. -/
def pngTileRow1 : TileRow :=
  { zoom_level := 1, tile_column := 0, tile_row := 0,
    tile_data := pngHeaderBytes }

/-- A well-formed database: both required tables, two PNG tiles, a name
metadata row. -/
def goodDb : SqliteDb :=
  { masterNames := ["tiles", "metadata"],
    tiles := [pngTileRow, pngTileRow1],
    metadata := [("name", "Geography Class")] }

/-- A world holding `goodDb` at an existing path with no journal file. -/
def goodWorld : World :=
  { pathExists := true, journalExists := false, db := goodDb }

/-- Same world, nonexistent path. -/
def missingPathWorld : World :=
  { goodWorld with pathExists := false }

/-- Same world, with a sibling -journal file. -/
def journalWorld : World :=
  { goodWorld with journalExists := true }

/-- Same world, with the metadata table missing from sqlite_master. -/
def noTablesWorld : World :=
  { goodWorld with db := { goodDb with masterNames := ["tiles"] } }

/-- Same world, with an empty tiles table. -/
def emptyTilesWorld : World :=
  { goodWorld with db := { goodDb with tiles := [] } }

/-- Same world, with a first tile that matches no magic signature. -/
def badFormatWorld : World :=
  { goodWorld with
    db := { goodDb with
      tiles := [{ zoom_level := 0, tile_column := 0, tile_row := 0,
                  tile_data := [0x00, 0x01, 0x02, 0x03] }] } }

/-- The handle `Open` builds for `goodWorld`. -/
def goodHandle : MBtiles :=
  { filename := "test.mbtiles", pool := some { closed := false },
    format := .PNG, tilesize := 256, db := goodDb }

/-- The flat JSON document of the minzoom/maxzoom counterexample. -/
def minmaxJsonDoc : String :=
  "\x7b\"minzoom\": 5, \"maxzoom\": 6\x7d"

/-- Modelled from the Go standard library: `encoding/json.Unmarshal` into
a `map[string]interface{}` decodes the flat two-field document
`minmaxJsonDoc` into its two top-level pairs, and — as Go documents for
`interface{}` targets — decodes the JSON numbers 5 and 6 as the float64
values 5.0 and 6.0, not as ints.  Other documents are not modelled. -/
def jsonDecodeMinMax : JsonDecoder := fun s =>
  if s = minmaxJsonDoc then
    .ok [("minzoom", .jsonNumber { mantissa := 5, exp10 := 0 }),
         ("maxzoom", .jsonNumber { mantissa := 6, exp10 := 0 })]
  else .error "document not modelled"

/-- An open handle whose metadata table carries only the JSON document
declaring minzoom/maxzoom. -/
def jsonHandle : MBtiles :=
  { filename := "json.mbtiles", pool := some { closed := false },
    format := .PNG, tilesize := 256,
    db := { masterNames := ["tiles", "metadata"],
            tiles := [pngTileRow],
            metadata := [("json", minmaxJsonDoc)] } }

/-- The map ReadMetadata produces for `jsonHandle`. -/
def minmaxCxMap : MetaMap :=
  [("minzoom", .jsonNumber { mantissa := 5, exp10 := 0 }),
   ("maxzoom", .jsonNumber { mantissa := 6, exp10 := 0 })]

/-- A tiles row at zoom 3 with an empty blob. -/
def zoom3Row : TileRow :=
  { zoom_level := 3, tile_column := 0, tile_row := 0, tile_data := [] }

/-- An open handle whose metadata table declares `bounds` with a single
comma-delimited token. -/
def boundsHandle : MBtiles :=
  { filename := "bounds.mbtiles", pool := some { closed := false },
    format := .PNG, tilesize := 256,
    db := { masterNames := ["tiles", "metadata"],
            tiles := [zoom3Row],
            metadata := [("bounds", "1.0")] } }

/-- The map ReadMetadata produces for `boundsHandle`: a one-element
bounds sequence (the parsed 1.0) plus the back-filled zoom range. -/
def boundsCxMap : MetaMap :=
  [("bounds", .floatsVal [{ mantissa := 10, exp10 := -1 }]),
   ("minzoom", .intVal 3), ("maxzoom", .intVal 3)]

/-- The map ReadMetadata produces for `goodHandle`: the declared name row
plus the zoom range back-filled from the two tile rows. -/
def goodMetaMap : MetaMap :=
  [("name", .strVal "Geography Class"),
   ("minzoom", .intVal 0), ("maxzoom", .intVal 1)]

/-- Two nonempty patterns that are both prefixes of the same buffer share
their first byte. -/
theorem head_eq_of_both_match {a b : Byte} {p q d : List Byte}
    (ha : (a :: p).isPrefixOf d = true) (hb : (b :: q).isPrefixOf d = true) :
    a = b := by
  cases d with
  | nil => simp [List.isPrefixOf] at ha
  | cons x xs =>
    simp [List.isPrefixOf] at ha hb
    exact ha.1.trans hb.1.symm

/-- The five signatures have pairwise distinct first bytes, so at most one
entry of the signature table matches any given buffer. -/
theorem formatPrefixes_unique_match {d : List Byte} {f1 f2 : TileFormat}
    {p1 p2 : List Byte}
    (h1 : (f1, p1) ∈ formatPrefixes) (h2 : (f2, p2) ∈ formatPrefixes)
    (m1 : p1.isPrefixOf d = true) (m2 : p2.isPrefixOf d = true) :
    (f1, p1) = (f2, p2) := by
  simp only [formatPrefixes, List.mem_cons, List.not_mem_nil, or_false] at h1 h2
  rcases h1 with h1|h1|h1|h1|h1 <;> rcases h2 with h2|h2|h2|h2|h2 <;>
    (injection h1 with h1a h1b; injection h2 with h2a h2b;
     subst h1a; subst h1b; subst h2a; subst h2b) <;>
    first
      | rfl
      | exact absurd (head_eq_of_both_match m1 m2) (by decide)

/-- First-match traversal returns the matching entry whenever the table
contains it and no other entry of the table matches. -/
theorem detectTileFormatWith_of_match (table : List (TileFormat × List Byte))
    (data : List Byte) (fmt : TileFormat) (pat : List Byte)
    (hmem : (fmt, pat) ∈ table)
    (hmatch : pat.isPrefixOf data = true)
    (huniq : ∀ f p, (f, p) ∈ table → p.isPrefixOf data = true →
      (f, p) = (fmt, pat)) :
    detectTileFormatWith table data = (fmt, none) := by
  induction table with
  | nil => cases hmem
  | cons hd tl ih =>
    obtain ⟨f0, p0⟩ := hd
    by_cases hp : p0.isPrefixOf data = true
    · have heq := huniq f0 p0 (List.mem_cons_self _ _) hp
      injection heq with ha hb
      subst ha; subst hb
      simp [detectTileFormatWith, hp]
    · have hne : (fmt, pat) ≠ (f0, p0) := by
        intro h; injection h with ha hb; subst ha; subst hb; exact hp hmatch
      have hmem2 : (fmt, pat) ∈ tl := by
        rcases List.mem_cons.mp hmem with h | h
        · exact absurd h hne
        · exact h
      simp only [detectTileFormatWith, hp, if_false]
      exact ih hmem2 fun f p hfp hm => huniq f p (List.mem_cons_of_mem _ hfp) hm

/-- First-match traversal fails when no entry of the table matches. -/
theorem detectTileFormatWith_of_none (table : List (TileFormat × List Byte))
    (data : List Byte)
    (hnone : ∀ f p, (f, p) ∈ table → p.isPrefixOf data = false) :
    detectTileFormatWith table data = (.UNKNOWN, some undetectableMsg) := by
  induction table with
  | nil => rfl
  | cons hd tl ih =>
    obtain ⟨f0, p0⟩ := hd
    have h0 := hnone f0 p0 (List.mem_cons_self _ _)
    simp only [detectTileFormatWith, h0, Bool.false_eq_true, if_false]
    exact ih fun f p hfp => hnone f p (List.mem_cons_of_mem _ hfp)

/-- C1: for every traversal order of the signature table, a buffer that
begins with one of the five magic signatures makes detectTileFormat
return the corresponding format with nil error, a buffer that begins with
none of them (in particular any buffer shorter than every signature)
yields UNKNOWN together with the undetectable error, and the result never
depends on the traversal order of the table. -/
theorem detectTileFormat_spec (table : List (TileFormat × List Byte))
    (hperm : formatPrefixes.Perm table) (data : List Byte) :
    (∀ fmt pat, (fmt, pat) ∈ formatPrefixes → pat.isPrefixOf data = true →
      detectTileFormatWith table data = (fmt, none))
    ∧ ((∀ fmt pat, (fmt, pat) ∈ formatPrefixes → pat.isPrefixOf data = false) →
      detectTileFormatWith table data = (.UNKNOWN, some undetectableMsg))
    ∧ detectTileFormatWith table data = detectTileFormat data := by
  have huniq_tab : ∀ fmt pat, (fmt, pat) ∈ formatPrefixes →
      pat.isPrefixOf data = true →
      ∀ f p, (f, p) ∈ table → p.isPrefixOf data = true → (f, p) = (fmt, pat) := by
    intro fmt pat hm hmt f p hfp hp
    exact formatPrefixes_unique_match (hperm.mem_iff.mpr hfp) hm hp hmt
  refine ⟨?_, ?_, ?_⟩
  · intro fmt pat hmem hmatch
    exact detectTileFormatWith_of_match table data fmt pat
      (hperm.mem_iff.mp hmem) hmatch (huniq_tab fmt pat hmem hmatch)
  · intro hnone
    exact detectTileFormatWith_of_none table data
      fun f p hfp => hnone f p (hperm.mem_iff.mpr hfp)
  · by_cases hex : ∃ fmt pat, (fmt, pat) ∈ formatPrefixes ∧
        pat.isPrefixOf data = true
    · obtain ⟨fmt, pat, hmem, hmatch⟩ := hex
      rw [detectTileFormatWith_of_match table data fmt pat
        (hperm.mem_iff.mp hmem) hmatch (huniq_tab fmt pat hmem hmatch)]
      rw [show detectTileFormat data = (fmt, none) from
        detectTileFormatWith_of_match formatPrefixes data fmt pat hmem hmatch
          fun f p hfp hp => formatPrefixes_unique_match hfp hmem hp hmatch]
    · push_neg at hex
      have hnone : ∀ f p, (f, p) ∈ formatPrefixes →
          p.isPrefixOf data = false := by
        intro f p hfp
        exact Bool.eq_false_iff.mpr (hex f p hfp)
      rw [detectTileFormatWith_of_none table data
        fun f p hfp => hnone f p (hperm.mem_iff.mpr hfp)]
      rw [show detectTileFormat data = (.UNKNOWN, some undetectableMsg) from
        detectTileFormatWith_of_none formatPrefixes data hnone]

/-- Witness for C1: the reversed table classifies a PNG-signature buffer
as PNG, and the canonical table rejects a buffer matching no signature. -/
theorem detectTileFormat_spec_witness :
    detectTileFormatWith formatPrefixes.reverse pngHeaderBytes = (.PNG, none)
    ∧ detectTileFormatWith formatPrefixes [0x00, 0x01] =
        (.UNKNOWN, some undetectableMsg) :=
  ⟨(detectTileFormat_spec formatPrefixes.reverse (List.reverse_perm _).symm
      pngHeaderBytes).1 .PNG [0x89, 0x50, 0x4E, 0x47, 0x0D, 0x0A, 0x1A, 0x0A]
      (by decide) (by decide),
   (detectTileFormat_spec formatPrefixes (List.Perm.refl _) [0x00, 0x01]).2.1
      (by
        intro f p hm
        simp only [formatPrefixes, List.mem_cons, List.not_mem_nil,
          or_false] at hm
        rcases hm with h|h|h|h|h <;> (injection h with ha hb; subst hb) <;>
          decide)⟩

/-- Counterexample to C10 as stated: PBF is not an image format, yet its
MIME type is "application/x-protobuf", not the empty string. -/
theorem MimeType_pbf_not_empty :
    TileFormat.MimeType .PBF = "application/x-protobuf"
    ∧ TileFormat.MimeType .PBF ≠ "" :=
  ⟨rfl, by decide⟩

/-- C10 amended: MimeType maps the three image formats and the vector
format PBF to MIME type strings, and returns the empty string exactly for
UNKNOWN, GZIP and ZLIB. -/
theorem MimeType_table :
    TileFormat.MimeType .PNG = "image/png"
    ∧ TileFormat.MimeType .JPG = "image/jpeg"
    ∧ TileFormat.MimeType .WEBP = "image/webp"
    ∧ TileFormat.MimeType .PBF = "application/x-protobuf"
    ∧ TileFormat.MimeType .UNKNOWN = ""
    ∧ TileFormat.MimeType .GZIP = ""
    ∧ TileFormat.MimeType .ZLIB = "" :=
  ⟨rfl, rfl, rfl, rfl, rfl, rfl, rfl⟩

/-- C3: contrary to the claim that detectTileSize is bounds-checked and
total for every input, the WEBP branch evaluates `data[12:16]` before any
length guard: on the 12-byte RIFF....WEBP header alone (a buffer shorter
than the 16 bytes needed for the chunk-type tag) the code performs an
out-of-bounds slice — a Go runtime panic, not a returned error. -/
theorem detectTileSize_webp_short_input_crashes :
    ∀ jpegWidth, detectTileSize jpegWidth .WEBP (lossyWebpBytes.take 12) =
      .crash sliceOutOfRangeMsg :=
  fun _ => rfl

/-- C4: on a lossy VP8 buffer the guard `len(data) < 27` admits a buffer
of exactly 27 bytes, but the code then reads `data[27]`, one past the
end — a Go runtime panic — so the claimed "at least 27 bytes returns the
width" fails at exactly 27 bytes; buffers of 26 bytes or fewer do return
the insufficient-length error, and from 28 bytes on the width formula
`((byte[27] & 0x3F) << 8) | byte[26]` is returned (320 on the
repository's own 28-byte test vector). -/
theorem detectTileSize_vp8_guard_off_by_one :
    (∀ jpegWidth, detectTileSize jpegWidth .WEBP (lossyWebpBytes.take 26) =
      .err webpTooShortMsg)
    ∧ (∀ jpegWidth, detectTileSize jpegWidth .WEBP (lossyWebpBytes.take 27) =
      .crash indexOutOfRangeMsg)
    ∧ (∀ jpegWidth, detectTileSize jpegWidth .WEBP lossyWebpBytes = .ok 320)
    ∧ ((((byteAt lossyWebpBytes 27) &&& 0x3f) <<< 8) |||
        (byteAt lossyWebpBytes 26)) = 320 :=
  ⟨fun _ => rfl, fun _ => rfl, fun _ => rfl, rfl⟩

/-- The GZIP-to-PBF promotion never leaves GZIP in place. -/
theorem promoteGzip_ne_gzip (f : TileFormat) : promoteGzip f ≠ .GZIP := by
  unfold promoteGzip
  split
  · decide
  · next hne => exact hne

/-- A successful Open implies the sample step succeeded, yielding exactly
the format and size stored on the handle. -/
theorem Open_ok_sample (jpegWidth : List Byte → Except String Nat)
    (w : World) (path : String) (h : MBtiles)
    (hok : Open jpegWidth w path = .ok h) :
    getTileFormatAndSize jpegWidth w.db = .ok (h.format, h.tilesize) := by
  unfold Open at hok
  split at hok
  · cases hok
  · split at hok
    · cases hok
    · split at hok
      · cases hok
      · split at hok
        · cases hok
        · cases hok
        · next fmt size heq =>
          simp only [GoResult.ok.injEq] at hok
          rw [← hok]
          exact heq

/-- The format part of a successful sample step is never GZIP, because
the promotion to PBF happens before the pair is returned. -/
theorem getTileFormatAndSize_not_gzip (jpegWidth : List Byte → Except String Nat)
    (db : SqliteDb) (fmt : TileFormat) (size : Nat)
    (h : getTileFormatAndSize jpegWidth db = .ok (fmt, size)) : fmt ≠ .GZIP := by
  unfold getTileFormatAndSize at h
  split at h
  · cases h
  · split at h
    · cases h
    · split at h
      · cases h
      · cases h
      · simp only [GoResult.ok.injEq, Prod.mk.injEq] at h
        rw [← h.1]
        exact promoteGzip_ne_gzip _

/-- C8: the stored tile format of a successfully opened handle is never
GZIP — a gzip-sniffed sample is promoted to PBF before the handle is
built, so GetTileFormat cannot return GZIP for an open handle. -/
theorem Open_format_never_gzip (jpegWidth : List Byte → Except String Nat)
    (w : World) (path : String) (h : MBtiles)
    (hok : Open jpegWidth w path = .ok h) : GetTileFormat h ≠ .GZIP :=
  getTileFormatAndSize_not_gzip jpegWidth w.db h.format h.tilesize
    (Open_ok_sample jpegWidth w path h hok)

/-- Witness for C8: the handle opened over the PNG world has a non-GZIP
format. -/
theorem Open_format_never_gzip_witness : GetTileFormat goodHandle ≠ .GZIP :=
  Open_format_never_gzip jpegWidthStub goodWorld "test.mbtiles" goodHandle
    (by decide)

/-- C2: Open validates in a fixed order with the first failure winning —
nonexistent path, then sibling -journal file, then missing required
tables, then empty tiles table, then unclassifiable sample bytes — each
failing with its error and no handle; and a returned handle implies every
one of those validations passed. -/
theorem Open_validation_order (jpegWidth : List Byte → Except String Nat)
    (w : World) (path : String) :
    (w.pathExists = false → Open jpegWidth w path = .err (pathNotFoundMsg path))
    ∧ (w.pathExists = true → w.journalExists = true →
        Open jpegWidth w path = .err journalMsg)
    ∧ (w.pathExists = true → w.journalExists = false →
        requiredTablesCount w.db < 2 →
        Open jpegWidth w path = .err missingTablesMsg)
    ∧ (w.pathExists = true → w.journalExists = false →
        2 ≤ requiredTablesCount w.db → w.db.tiles = [] →
        Open jpegWidth w path = .err emptyTilesMsg)
    ∧ (∀ row rest, w.pathExists = true → w.journalExists = false →
        2 ≤ requiredTablesCount w.db → w.db.tiles = row :: rest →
        (detectTileFormat row.tile_data).2 = some undetectableMsg →
        Open jpegWidth w path = .err undetectableMsg)
    ∧ (∀ h, Open jpegWidth w path = .ok h →
        w.pathExists = true ∧ w.journalExists = false ∧
        2 ≤ requiredTablesCount w.db ∧ w.db.tiles ≠ []) := by
  refine ⟨?_, ?_, ?_, ?_, ?_, ?_⟩
  · intro h
    simp [Open, h]
  · intro h1 h2
    simp [Open, h1, h2]
  · intro h1 h2 h3
    simp [Open, h1, h2, validateRequiredTables, h3]
  · intro h1 h2 h3 h4
    simp [Open, h1, h2, validateRequiredTables, Nat.not_lt.mpr h3,
      getTileFormatAndSize, h4]
  · intro row rest h1 h2 h3 h4 h5
    rcases hdf : detectTileFormat row.tile_data with ⟨f, oe⟩
    rw [hdf] at h5
    simp only at h5
    subst h5
    simp [Open, h1, h2, validateRequiredTables, Nat.not_lt.mpr h3,
      getTileFormatAndSize, h4, hdf]
  · intro h hok
    unfold Open at hok
    split at hok
    · cases hok
    · next hpe =>
      split at hok
      · cases hok
      · next hj =>
        refine ⟨by revert hpe; cases w.pathExists <;> simp,
                by revert hj; cases w.journalExists <;> simp, ?_, ?_⟩
        · revert hok
          split
          · intro hok; cases hok
          · next hv =>
            intro _
            by_contra hc
            have hlt : requiredTablesCount w.db < 2 := Nat.not_le.mp hc
            simp [validateRequiredTables, hlt] at hv
        · revert hok
          split
          · intro hok; cases hok
          · next hv =>
            intro hok
            cases ht : w.db.tiles with
            | nil =>
              have hg : getTileFormatAndSize jpegWidth w.db =
                  .err emptyTilesMsg := by
                unfold getTileFormatAndSize
                rw [ht]
                rfl
              rw [hg] at hok
              cases hok
            | cons r rs => simp [ht]

/-- Witness for C2: each of the five invalid worlds fails with exactly
its own error, and the well-formed world satisfies every validation. -/
theorem Open_validation_order_witness :
    Open jpegWidthStub missingPathWorld "a.mbtiles" =
      .err (pathNotFoundMsg "a.mbtiles")
    ∧ Open jpegWidthStub journalWorld "a.mbtiles" = .err journalMsg
    ∧ Open jpegWidthStub noTablesWorld "a.mbtiles" = .err missingTablesMsg
    ∧ Open jpegWidthStub emptyTilesWorld "a.mbtiles" = .err emptyTilesMsg
    ∧ Open jpegWidthStub badFormatWorld "a.mbtiles" = .err undetectableMsg
    ∧ (goodWorld.pathExists = true ∧ goodWorld.journalExists = false ∧
        2 ≤ requiredTablesCount goodWorld.db ∧ goodWorld.db.tiles ≠ []) :=
  ⟨(Open_validation_order jpegWidthStub missingPathWorld "a.mbtiles").1
      (by decide),
   (Open_validation_order jpegWidthStub journalWorld "a.mbtiles").2.1
      (by decide) (by decide),
   (Open_validation_order jpegWidthStub noTablesWorld "a.mbtiles").2.2.1
      (by decide) (by decide) (by decide),
   (Open_validation_order jpegWidthStub emptyTilesWorld "a.mbtiles").2.2.2.1
      (by decide) (by decide) (by decide) (by decide),
   (Open_validation_order jpegWidthStub badFormatWorld "a.mbtiles").2.2.2.2.1
      { zoom_level := 0, tile_column := 0, tile_row := 0,
        tile_data := [0x00, 0x01, 0x02, 0x03] } []
      (by decide) (by decide) (by decide) (by decide) (by decide),
   (Open_validation_order jpegWidthStub goodWorld "test.mbtiles").2.2.2.2.2
      goodHandle (by decide)⟩

/-- C6: on an open handle with a live pool, a coordinate matched by no
row of the tiles table makes ReadTile write nil and return no error — a
missing tile is success — while a matching row returns exactly its stored
tile_data bytes. -/
theorem ReadTile_missing_or_found (db : MBtiles) (pool : Pool) (z x y : Int)
    (hp : db.pool = some pool) (hlive : pool.closed = false) :
    ((∀ r ∈ db.db.tiles, tileRowMatches z x y r = false) →
        ReadTile (some db) z x y = .ok none)
    ∧ (∀ row, db.db.tiles.find? (tileRowMatches z x y) = some row →
        ReadTile (some db) z x y = .ok (some row.tile_data)) := by
  constructor
  · intro hnone
    have hfind : db.db.tiles.find? (tileRowMatches z x y) = none :=
      List.find?_eq_none.mpr fun r hr => by simp [hnone r hr]
    simp [ReadTile, hp, hlive, hfind]
  · intro row hrow
    simp [ReadTile, hp, hlive, hrow]

/-- Witness for C6: on the PNG fixture handle, coordinate 10/0/0 is
absent (nil result, no error) and 0/0/0 returns the stored bytes. -/
theorem ReadTile_missing_or_found_witness :
    ReadTile (some goodHandle) 10 0 0 = .ok none
    ∧ ReadTile (some goodHandle) 0 0 0 = .ok (some pngHeaderBytes) :=
  ⟨(ReadTile_missing_or_found goodHandle { closed := false } 10 0 0 rfl rfl).1
      (by decide),
   (ReadTile_missing_or_found goodHandle { closed := false } 0 0 0 rfl rfl).2
      pngTileRow (by decide)⟩

/-- C7 amended: Close is idempotent and a safe no-op on a zero-value
handle; reads on a nil or never-opened handle (nil pool) fail with the
HandleClosed error; and reads after Close always fail with an error and
never fault — but since Close leaves the pool field set, a read after
Close misses the nil-pool guard and fails with the connection-acquisition
error instead of HandleClosed. -/
theorem Close_idempotent_reads_fail :
    (∀ db, Close (Close db) = Close db)
    ∧ Close MBtiles.zero = MBtiles.zero
    ∧ (∀ db z x y, db.pool = none →
        ReadTile (some db) z x y = .err handleClosedMsg)
    ∧ (∀ jsonDecode db, db.pool = none →
        ReadMetadata jsonDecode (some db) = .err handleClosedMsg)
    ∧ (∀ z x y, ReadTile none z x y = .err handleClosedMsg)
    ∧ (∀ jsonDecode, ReadMetadata jsonDecode none = .err handleClosedMsg)
    ∧ (∀ db z x y, ReadTile (some (Close db)) z x y =
        .err (if db.pool = none then handleClosedMsg else connectionFailedMsg))
    ∧ (∀ jsonDecode db, ReadMetadata jsonDecode (some (Close db)) =
        .err (if db.pool = none then handleClosedMsg else connectionFailedMsg)) := by
  refine ⟨?_, ?_, ?_, ?_, ?_, ?_, ?_, ?_⟩
  · intro db
    cases hp : db.pool with
    | none => simp [Close, hp]
    | some p => simp [Close, hp]
  · rfl
  · intro db z x y hp
    simp [ReadTile, hp]
  · intro jsonDecode db hp
    simp [ReadMetadata, hp]
  · intro z x y; rfl
  · intro jsonDecode; rfl
  · intro db z x y
    cases hp : db.pool with
    | none => simp [Close, hp, ReadTile]
    | some p => simp [Close, hp, ReadTile]
  · intro jsonDecode db
    cases hp : db.pool with
    | none => simp [Close, hp, ReadMetadata]
    | some p => simp [Close, hp, ReadMetadata]

/-- Witness for C7: a never-opened handle fails with HandleClosed, and a
closed fixture handle fails with the connection error. -/
theorem Close_idempotent_reads_fail_witness :
    ReadTile (some { goodHandle with pool := none }) 0 0 0 =
      .err handleClosedMsg
    ∧ ReadTile (some (Close goodHandle)) 0 0 0 =
        .err (if goodHandle.pool = none then handleClosedMsg
              else connectionFailedMsg) :=
  ⟨Close_idempotent_reads_fail.2.2.1 { goodHandle with pool := none } 0 0 0 rfl,
   Close_idempotent_reads_fail.2.2.2.2.2.2.1 goodHandle 0 0 0⟩

/-- Counterexample to C7 as stated: after Close on a live handle, reads
fail with the connection-acquisition error, which is not the HandleClosed
error the claim names. -/
theorem Close_then_read_error_differs :
    ReadTile (some (Close goodHandle)) 0 0 0 = .err connectionFailedMsg
    ∧ ReadMetadata jsonDecodeStub (some (Close goodHandle)) =
        .err connectionFailedMsg
    ∧ connectionFailedMsg ≠ handleClosedMsg :=
  ⟨rfl, rfl, by decide⟩

/-- Map lookup after updating the same key yields the new value. -/
theorem mget_mput_self (m : MetaMap) (k : String) (v : MetaValue) :
    mget (mput m k v) k = some v := by
  induction m with
  | nil => simp [mput, mget, List.find?]
  | cons kv rest ih =>
    by_cases hk : kv.1 == k
    · simp [mput, hk, mget, List.find?]
    · simp only [mput, hk, if_false, Bool.false_eq_true]
      simp only [mget, List.find?, hk] at ih ⊢
      exact ih

/-- Map lookup of a different key is unchanged by an update. -/
theorem mget_mput_ne (m : MetaMap) (k k2 : String) (v : MetaValue)
    (hne : k2 ≠ k) : mget (mput m k v) k2 = mget m k2 := by
  have hbk : (k == k2) = false := by simp [Ne.symm hne]
  induction m with
  | nil => simp [mput, mget, List.find?, hbk]
  | cons kv rest ih =>
    by_cases hk : kv.1 == k
    · have h1 : kv.1 = k := by simpa using hk
      have h2 : (kv.1 == k2) = false := by simp [h1, Ne.symm hne]
      simp [mput, hk, mget, List.find?, hbk, h2]
    · simp only [mput, hk, if_false, Bool.false_eq_true]
      by_cases h2 : kv.1 == k2
      · simp [mget, List.find?, h2]
      · simp only [mget, List.find?, h2, Bool.false_eq_true] at ih ⊢
        exact ih

/-- C5 amended: every successful ReadMetadata result contains both the
minzoom and maxzoom keys; whenever the scan leaves either absent, both
are back-filled as integers from the minimum and maximum zoom_level of
the tiles table.  (The values are the Atoi integers when declared through
minzoom/maxzoom rows, but an embedded json document may bind these keys
to non-integer values, so integrality of the final values cannot be
promised in general.) -/
theorem ReadMetadata_minmax (jsonDecode : JsonDecoder) (db? : Option MBtiles)
    (m : MetaMap) (h : ReadMetadata jsonDecode db? = .ok m) :
    (mget m "minzoom").isSome = true ∧ (mget m "maxzoom").isSome = true
    ∧ (∀ db m0, db? = some db →
        scanMetadata jsonDecode db.db.metadata = .ok m0 →
        ((mget m0 "minzoom").isSome && (mget m0 "maxzoom").isSome) = false →
        mget m "minzoom" = some (.intVal (minZoomInt db.db.tiles))
        ∧ mget m "maxzoom" = some (.intVal (maxZoomInt db.db.tiles))) := by
  unfold ReadMetadata at h
  split at h
  · cases h
  · next db =>
    split at h
    · cases h
    · next pool =>
      split at h
      · cases h
      · split at h
        · cases h
        · next m0 hscan =>
          split at h
          · next hboth =>
            injection h with h; subst h
            have hb := hboth
            rw [Bool.and_eq_true] at hb
            refine ⟨hb.1, hb.2, ?_⟩
            intro db2 m02 hdb hscan2 hfalse
            injection hdb with hdb; subst hdb
            rw [hscan] at hscan2
            injection hscan2 with he; subst he
            rw [hboth] at hfalse
            cases hfalse
          · injection h with h; subst h
            have hmin : mget (mput (mput m0 "minzoom"
                (.intVal (minZoomInt db.db.tiles)))
                "maxzoom" (.intVal (maxZoomInt db.db.tiles))) "minzoom" =
                some (.intVal (minZoomInt db.db.tiles)) := by
              rw [mget_mput_ne _ _ _ _ (by decide), mget_mput_self]
            have hmax : mget (mput (mput m0 "minzoom"
                (.intVal (minZoomInt db.db.tiles)))
                "maxzoom" (.intVal (maxZoomInt db.db.tiles))) "maxzoom" =
                some (.intVal (maxZoomInt db.db.tiles)) := mget_mput_self _ _ _
            refine ⟨by rw [hmin]; rfl, by rw [hmax]; rfl, ?_⟩
            intro db2 m02 hdb hscan2 hfalse
            injection hdb with hdb; subst hdb
            rw [hscan] at hscan2
            injection hscan2 with he; subst he
            exact ⟨hmin, hmax⟩

/-- Witness for C5: the PNG fixture handle declares no zoom keys, and its
result carries both, back-filled to the tile zoom range 0..1. -/
theorem ReadMetadata_minmax_witness :
    (mget goodMetaMap "minzoom").isSome = true
    ∧ (mget goodMetaMap "maxzoom").isSome = true
    ∧ (mget goodMetaMap "minzoom" =
        some (.intVal (minZoomInt goodHandle.db.tiles))
      ∧ mget goodMetaMap "maxzoom" =
        some (.intVal (maxZoomInt goodHandle.db.tiles))) :=
  ⟨(ReadMetadata_minmax jsonDecodeStub (some goodHandle) goodMetaMap
      (by decide)).1,
   (ReadMetadata_minmax jsonDecodeStub (some goodHandle) goodMetaMap
      (by decide)).2.1,
   (ReadMetadata_minmax jsonDecodeStub (some goodHandle) goodMetaMap
      (by decide)).2.2 goodHandle [("name", .strVal "Geography Class")]
      rfl (by decide) (by decide)⟩

/-- Counterexample to C5 as stated: a metadata table whose json row
declares minzoom and maxzoom yields a successful result in which minzoom
is bound to the float64 value 5.0 merged from the JSON document — both
keys are present, so no back-fill happens, and the value is not an
integer. -/
theorem ReadMetadata_json_nonint :
    ReadMetadata jsonDecodeMinMax (some jsonHandle) = .ok minmaxCxMap
    ∧ mget minmaxCxMap "minzoom" =
        some (.jsonNumber { mantissa := 5, exp10 := 0 })
    ∧ MetaValue.isIntVal (.jsonNumber { mantissa := 5, exp10 := 0 }) = false :=
  ⟨by decide, by decide, rfl⟩

/-- The parseFloats loop appends exactly one float per remaining token. -/
theorem parseFloatsLoop_length (tokens : List String) (orig : String) :
    ∀ out xs, parseFloatsLoop tokens orig out = .ok xs →
      xs.length = out.length + tokens.length := by
  induction tokens with
  | nil =>
    intro out xs h
    injection h with h
    subst h
    simp
  | cons v rest ih =>
    intro out xs h
    unfold parseFloatsLoop at h
    cases hv : parseGoFloat (goTrimSpace v) with
    | none => rw [hv] at h; cases h
    | some value =>
      rw [hv] at h
      have hlen := ih (out ++ [value]) xs h
      simp at hlen ⊢
      omega

/-- A successful monadic fold over Except ran its step successfully on
every list element (each from some accumulator). -/
theorem foldlM_except_each {α β : Type} (step : β → α → Except String β) :
    ∀ (l : List α) (init res : β), List.foldlM step init l = .ok res →
      ∀ x ∈ l, ∃ acc r, step acc x = .ok r := by
  intro l
  induction l with
  | nil => intro init res h x hx; cases hx
  | cons a t ih =>
    intro init res h x hx
    rw [List.foldlM_cons] at h
    cases hstep : step init a with
    | error e =>
      rw [hstep] at h
      cases h
    | ok b =>
      rw [hstep] at h
      rcases List.mem_cons.mp hx with rfl | hx2
      · exact ⟨init, b, hstep⟩
      · exact ih b res (by simpa using h) x hx2

/-- A successful metadata scan implies every bounds/center row with a
non-empty value parsed as floats. -/
theorem scanMetadata_ok_row (jsonDecode : JsonDecoder)
    (rows : List (String × String)) (m : MetaMap)
    (h : scanMetadata jsonDecode rows = .ok m) :
    ∀ kv ∈ rows, (kv.1 = "bounds" ∨ kv.1 = "center") → kv.2 ≠ "" →
      ∃ xs, parseFloats kv.2 = .ok xs := by
  intro kv hkv hkey hne
  have hmem : kv ∈ rows.filter (fun kv => kv.2 != "") := by
    simp only [List.mem_filter, hkv, true_and, bne_iff_ne, ne_eq]
    exact hne
  obtain ⟨acc, r, hstep⟩ :=
    foldlM_except_each (metadataStep jsonDecode) _ [] m h kv hmem
  unfold metadataStep at hstep
  have hk1 : (kv.1 == "maxzoom" || kv.1 == "minzoom") = false := by
    rcases hkey with hk | hk <;> simp [hk]
  have hk2 : (kv.1 == "bounds" || kv.1 == "center") = true := by
    rcases hkey with hk | hk <;> simp [hk]
  simp only [hk1, hk2, if_false, if_true, Bool.false_eq_true] at hstep
  cases hpf : parseFloats kv.2 with
  | ok xs => exact ⟨xs, rfl⟩
  | error e => rw [hpf] at hstep; cases hstep

/-- A successful ReadMetadata implies the scan succeeded. -/
theorem ReadMetadata_ok_scan (jsonDecode : JsonDecoder) (db : MBtiles)
    (m : MetaMap) (h : ReadMetadata jsonDecode (some db) = .ok m) :
    ∃ m0, scanMetadata jsonDecode db.db.metadata = .ok m0 := by
  unfold ReadMetadata at h
  split at h
  · cases h
  · rename_i db2 hdb
    injection hdb with hdb
    subst hdb
    split at h
    · cases h
    · split at h
      · cases h
      · split at h
        · cases h
        · rename_i m0 hscan
          exact ⟨m0, hscan⟩

/-- C9 amended: parseFloats coerces a comma-delimited string to an
ordered sequence of floats with exactly one float per token (the counts
4 for bounds and 2 for center are not validated), and a successful
ReadMetadata implies every non-empty bounds/center value parsed in full —
equivalently, a non-numeric token fails the whole call with no map
returned. -/
theorem parseFloats_tokenwise :
    (∀ str xs, parseFloats str = .ok xs →
      xs.length = (commaTokens str).length)
    ∧ (∀ jsonDecode db m, ReadMetadata jsonDecode (some db) = .ok m →
        ∀ kv ∈ db.db.metadata, (kv.1 = "bounds" ∨ kv.1 = "center") →
        kv.2 ≠ "" → ∃ xs, parseFloats kv.2 = .ok xs) := by
  constructor
  · intro str xs h
    have hlen := parseFloatsLoop_length (commaTokens str) str [] xs h
    simpa using hlen
  · intro jsonDecode db m h kv hkv hkey hne
    obtain ⟨m0, hscan⟩ := ReadMetadata_ok_scan jsonDecode db m h
    exact scanMetadata_ok_row jsonDecode db.db.metadata m0 hscan kv hkv hkey hne

/-- Witness for C9: the two-token value 0.5,1 parses to exactly two
floats. -/
theorem parseFloats_tokenwise_witness :
    ([{ mantissa := 5, exp10 := -1 }, { mantissa := 1, exp10 := 0 }] :
      List DecFloat).length = (commaTokens "0.5,1").length :=
  parseFloats_tokenwise.1 "0.5,1" _ (by decide)

/-- Counterexample to C9 as stated: a bounds value with a single numeric
token succeeds with a 1-element sequence — the claimed arity of exactly 4
is never checked. -/
theorem bounds_arity_unchecked :
    ReadMetadata jsonDecodeStub (some boundsHandle) = .ok boundsCxMap
    ∧ mget boundsCxMap "bounds" =
        some (.floatsVal [{ mantissa := 10, exp10 := -1 }])
    ∧ ([{ mantissa := 10, exp10 := -1 }] : List DecFloat).length ≠ 4 :=
  ⟨by decide, by decide, by decide⟩

end Mbtiles
